import Mathlib

/-!
Verification of the bead crop-and-export tool (`src/crop.py`).

The development shallowly embeds the program's data model and operations:

* the per-frame crop/pad geometry of `export_selected_beads` (lines 89-122),
  with frames as rectangular lists of pixel rows and Python/numpy slicing
  made explicit;
* the GUI selection model (`VideoFrameExplorer`): the candidate list of
  `(center, clicked)` pairs, `add_custom_rectangle`, `update_crop_size`,
  `on_canvas_click`, the scale computations `get_scale` and the
  width-only scale used by the click/export handlers, and the export-time
  center mapping;
* the completion loop of the parallel export coordinator
  (`VideoFrameExplorer.export`, lines 429-441);
* the centroid arithmetic of `detect_beads` (the OpenCV moment calls are
  modelled from the spec, as noted at the definition).

Coordinates that Python holds as floats (scaled centers, scale factors)
are embedded as rationals; all concrete inputs used in witnesses and
counterexamples are exactly representable, so the rational arithmetic
agrees with the float arithmetic the program performs on them.
-/

/-! ## Frames and Python slicing -/

/-- A video frame: a list of pixel rows.  One natural number per pixel
stands for the pixel's (packed) channel value; the claims under study only
depend on geometry and on pixel values being copied or zeroed. -/
abbrev Image := List (List Nat)

/-- `pySlice l a b` is Python's `l[a:b]` for `0 ≤ a, b` (the only case the
program produces: both bounds are clamped below by `max(0, ·)` / above by
`min(·, len)` before slicing). -/
def pySlice (l : List α) (a b : Nat) : List α := (l.drop a).take (b - a)

/-- Width of a frame, `frame.shape[1]` for a rectangular array: the length
of the first row (0 for an empty frame). -/
def imWidth (img : Image) : Nat := (img.head?.map List.length).getD 0

/-- Rectangularity: every row has the frame's width.  numpy arrays are
rectangular by construction, so source frames always satisfy this. -/
def isRect (img : Image) : Prop := ∀ row ∈ img, row.length = imWidth img

instance (img : Image) : Decidable (isRect img) := by
  unfold isRect; infer_instance

/-- `getPixel img r c` reads pixel `(r, c)`, returning 0 out of bounds. -/
def getPixel (img : Image) (r c : Nat) : Nat := ((img[r]?).getD [])[c]?.getD 0

/-! ## The crop/pad geometry of `export_selected_beads` (crop.py 89-122) -/

/-- `half_crop_size = crop_size // 2` (crop.py line 89). -/
def half_crop_size (s : Nat) : Nat := s / 2

/-- The clipped crop block `frame[y1:y2, x1:x2]` of crop.py lines 106-112:
`y1 = max(0, cy - half)`, `y2 = min(cy + half, frame.shape[0])`,
`x1 = max(0, cx - half)`, `x2 = min(cx + half, frame.shape[1])`.
Truncated subtraction on `Nat` is exactly `max(0, ·)` here, since the
selected centers handed to `export_selected_beads` are non-negative. -/
def crop_region (frame : Image) (s cx cy : Nat) : Image :=
  (pySlice frame (cy - half_crop_size s) (min (cy + half_crop_size s) frame.length)).map
    (fun row => pySlice row (cx - half_crop_size s)
      (min (cx + half_crop_size s) (imWidth frame)))

/-- The padding step of crop.py lines 117-119: a zero `s×s` canvas with
`padded[:h, :w] = crop_region` assigned at the canvas origin. -/
def padToCanvas (region : Image) (s : Nat) : Image :=
  (List.range s).map fun r =>
    (List.range s).map fun c =>
      if r < region.length ∧ c < imWidth region then getPixel region r c else 0

/-- The frame actually written per writer and per source frame
(crop.py lines 105-122): the clipped block itself when it already has
shape `s×s`, otherwise the block padded onto the zero canvas. -/
def written_frame (frame : Image) (s cx cy : Nat) : Image :=
  let region := crop_region frame s cx cy
  if region.length = s ∧ imWidth region = s then region
  else padToCanvas region s

/-! ### Dimension lemmas -/

theorem pySlice_length (l : List α) (a b : Nat) :
    (pySlice l a b).length = min (b - a) (l.length - a) := by
  simp [pySlice]

theorem crop_region_length (frame : Image) (s cx cy : Nat) :
    (crop_region frame s cx cy).length =
      min (cy + half_crop_size s) frame.length - (cy - half_crop_size s) := by
  unfold crop_region
  simp only [List.length_map, pySlice_length]
  omega

theorem crop_region_row_length (frame : Image) (s cx cy : Nat)
    (hrect : isRect frame) :
    ∀ row ∈ crop_region frame s cx cy,
      row.length =
        min (min (cx + half_crop_size s) (imWidth frame) - (cx - half_crop_size s))
          (imWidth frame - (cx - half_crop_size s)) := by
  intro row hrow
  unfold crop_region at hrow
  simp only [List.mem_map] at hrow
  obtain ⟨src, hsrc, rfl⟩ := hrow
  have hmem : src ∈ frame := by
    have h1 : src ∈ frame.drop (cy - half_crop_size s) :=
      List.mem_of_mem_take hsrc
    exact List.mem_of_mem_drop h1
  rw [pySlice_length, hrect src hmem]

/-- Height and width of the clipped block never exceed `2 * (s / 2)`. -/
theorem crop_region_le (frame : Image) (s cx cy : Nat) (hrect : isRect frame) :
    (crop_region frame s cx cy).length ≤ 2 * half_crop_size s ∧
      imWidth (crop_region frame s cx cy) ≤ 2 * half_crop_size s := by
  constructor
  · rw [crop_region_length]; omega
  · unfold imWidth
    cases hhead : (crop_region frame s cx cy).head? with
    | none => simp
    | some row =>
      have hrow : row ∈ crop_region frame s cx cy := List.mem_of_mem_head? hhead
      have := crop_region_row_length frame s cx cy hrect row hrow
      show row.length ≤ 2 * half_crop_size s
      omega

/-- C1 dimension theorem, stated for any claim-valid situation.  Proof of
the rows part: in the unpadded branch the shape test plus rectangularity
forces every row to length `s`; in the padded branch the canvas has `s`
rows of `s` entries by construction. -/
theorem written_frame_dims (frame : Image) (s cx cy : Nat)
    (hrect : isRect frame) (hs : 0 < s) :
    (written_frame frame s cx cy).length = s ∧
      ∀ row ∈ written_frame frame s cx cy, row.length = s := by
  unfold written_frame
  by_cases hc : (crop_region frame s cx cy).length = s ∧
      imWidth (crop_region frame s cx cy) = s
  · rw [if_pos hc]
    refine ⟨hc.1, ?_⟩
    intro row hrow
    have hlen := crop_region_row_length frame s cx cy hrect row hrow
    -- the first row realizes the same length expression, and it equals s
    have hne : crop_region frame s cx cy ≠ [] := by
      intro hnil; rw [hnil] at hc; simp at hc; omega
    obtain ⟨r0, hr0⟩ := List.exists_mem_of_ne_nil _ hne
    have hw : imWidth (crop_region frame s cx cy) = r0.length := by
      unfold imWidth
      cases hhead : (crop_region frame s cx cy).head? with
      | none => exact absurd (List.head?_eq_none_iff.mp hhead) hne
      | some row0 =>
        have h0 : row0 ∈ crop_region frame s cx cy := List.mem_of_mem_head? hhead
        have := crop_region_row_length frame s cx cy hrect row0 h0
        show row0.length = r0.length
        rw [this, crop_region_row_length frame s cx cy hrect r0 hr0]
    rw [hlen, ← crop_region_row_length frame s cx cy hrect r0 hr0, ← hw, hc.2]
  · rw [if_neg hc]
    refine ⟨by simp [padToCanvas], ?_⟩
    intro row hrow
    unfold padToCanvas at hrow
    simp only [List.mem_map] at hrow
    obtain ⟨r, _, rfl⟩ := hrow
    simp

/-- **C1** — For every crop size `s > 0`, every selected center (edge
centers included) and every decoded (rectangular) source frame, the frame
written by `export_selected_beads` has exactly `s` rows of `s` pixels:
undersized clipped regions are padded onto a zero canvas, never resized. -/
theorem C1_written_frame_exact_size (frame : Image) (s cx cy : Nat)
    (hrect : isRect frame) (hs : 0 < s) :
    (written_frame frame s cx cy).length = s ∧
      ∀ row ∈ written_frame frame s cx cy, row.length = s :=
  written_frame_dims frame s cx cy hrect hs

/-- **C1 witness** — a 3×3 frame, crop size 4, center (1, 1) within
`s/2` of the top and left edges: the written frame is 4×4. -/
theorem C1_witness :
    isRect [[1, 2, 3], [4, 5, 6], [7, 8, 9]] ∧ 0 < 4 ∧
      (written_frame [[1, 2, 3], [4, 5, 6], [7, 8, 9]] 4 1 1).length = 4 ∧
      ∀ row ∈ written_frame [[1, 2, 3], [4, 5, 6], [7, 8, 9]] 4 1 1,
        row.length = 4 := by
  refine ⟨by decide, by decide, ?_⟩
  exact C1_written_frame_exact_size [[1, 2, 3], [4, 5, 6], [7, 8, 9]] 4 1 1
    (by decide) (by decide)

/-! ### Pixel-level lemmas -/

theorem getElem?_pySlice (l : List α) (a b i : Nat) :
    (pySlice l a b)[i]? = if i < b - a then l[a + i]? else none := by
  unfold pySlice
  by_cases h : i < b - a
  · rw [if_pos h, List.getElem?_take_of_lt h, List.getElem?_drop]
  · rw [if_neg h]
    refine List.getElem?_eq_none ?_
    rw [List.length_take]
    omega

theorem padToCanvas_pixel (reg : Image) (s r c : Nat) (hr : r < s) (hc : c < s) :
    getPixel (padToCanvas reg s) r c =
      if r < reg.length ∧ c < imWidth reg then getPixel reg r c else 0 := by
  unfold padToCanvas getPixel
  rw [List.getElem?_map, List.getElem?_range hr]
  show ((List.range s).map _)[c]?.getD 0 = _
  rw [List.getElem?_map, List.getElem?_range hc]
  rfl

theorem imWidth_crop_region (f : Image) (s cx cy : Nat) (hrect : isRect f)
    (hne : crop_region f s cx cy ≠ []) :
    imWidth (crop_region f s cx cy) =
      min (min (cx + half_crop_size s) (imWidth f) - (cx - half_crop_size s))
        (imWidth f - (cx - half_crop_size s)) := by
  unfold imWidth
  cases hhead : (crop_region f s cx cy).head? with
  | none => exact absurd (List.head?_eq_none_iff.mp hhead) hne
  | some row =>
    have hrow := List.mem_of_mem_head? hhead
    show row.length = _
    exact crop_region_row_length f s cx cy hrect row hrow

/-- Reading inside the clipped block reads the source frame at offset
`(y1 + r, x1 + c)`: the block is anchored at its own top-left corner. -/
theorem crop_region_pixel (f : Image) (s cx cy r c : Nat)
    (hr : (cy - half_crop_size s) + r < min (cy + half_crop_size s) f.length)
    (hc : (cx - half_crop_size s) + c < min (cx + half_crop_size s) (imWidth f)) :
    getPixel (crop_region f s cx cy) r c =
      getPixel f ((cy - half_crop_size s) + r) ((cx - half_crop_size s) + c) := by
  unfold getPixel crop_region
  rw [List.getElem?_map, getElem?_pySlice,
    if_pos (show r < min (cy + half_crop_size s) f.length - (cy - half_crop_size s) by omega)]
  have hylen : (cy - half_crop_size s) + r < f.length := by omega
  rw [List.getElem?_eq_getElem hylen]
  show (pySlice (f[(cy - half_crop_size s) + r]) _ _)[c]?.getD 0 = _
  rw [getElem?_pySlice,
    if_pos (show c < min (cx + half_crop_size s) (imWidth f) - (cx - half_crop_size s) by omega)]
  rfl

/-- Master pixel lemma for the written frame: within the `s×s` output,
position `(r, c)` holds the source pixel at `(y1 + r, x1 + c)` when that
offset still lies inside the clipped window, and 0 otherwise.  This is the
code's actual placement rule: the clipped block sits at the canvas origin
regardless of which edges clipped it. -/
theorem written_frame_pixel (f : Image) (s cx cy : Nat) (hrect : isRect f)
    (r c : Nat) (hr : r < s) (hc : c < s) :
    getPixel (written_frame f s cx cy) r c =
      if (cy - half_crop_size s) + r < min (cy + half_crop_size s) f.length ∧
          (cx - half_crop_size s) + c < min (cx + half_crop_size s) (imWidth f)
      then getPixel f ((cy - half_crop_size s) + r) ((cx - half_crop_size s) + c)
      else 0 := by
  unfold written_frame
  by_cases hshape : (crop_region f s cx cy).length = s ∧
      imWidth (crop_region f s cx cy) = s
  · rw [if_pos hshape]
    have hh := crop_region_length f s cx cy
    have hne : crop_region f s cx cy ≠ [] := by
      intro hnil
      rw [hnil] at hshape
      simp only [List.length_nil] at hshape
      omega
    have hw := imWidth_crop_region f s cx cy hrect hne
    have hcond1 : (cy - half_crop_size s) + r < min (cy + half_crop_size s) f.length := by
      omega
    have hcond2 : (cx - half_crop_size s) + c < min (cx + half_crop_size s) (imWidth f) := by
      omega
    rw [if_pos ⟨hcond1, hcond2⟩]
    exact crop_region_pixel f s cx cy r c hcond1 hcond2
  · rw [if_neg hshape, padToCanvas_pixel _ _ _ _ hr hc]
    have hh := crop_region_length f s cx cy
    by_cases hcond : (cy - half_crop_size s) + r < min (cy + half_crop_size s) f.length ∧
        (cx - half_crop_size s) + c < min (cx + half_crop_size s) (imWidth f)
    · rw [if_pos hcond]
      have hlen : r < (crop_region f s cx cy).length := by omega
      have hne : crop_region f s cx cy ≠ [] := by
        intro hnil
        rw [hnil] at hlen
        simp at hlen
      have hw := imWidth_crop_region f s cx cy hrect hne
      rw [if_pos ⟨hlen, by omega⟩]
      exact crop_region_pixel f s cx cy r c hcond.1 hcond.2
    · rw [if_neg hcond, if_neg ?_]
      intro ⟨h1, h2⟩
      have hne : crop_region f s cx cy ≠ [] := by
        intro hnil
        rw [hnil] at h1
        simp at h1
      have hw := imWidth_crop_region f s cx cy hrect hne
      exact hcond ⟨by omega, by omega⟩

/-- **C2 counterexample** — frame a 4×4 image with distinct pixels, crop
size 4 (`half = 2`), center `(1, 1)`.  The crop window is
`[-1, 3) × [-1, 3)`; the frame pixel `(0, 0)` (value 1) lies inside it at
window-relative offset `(1, 1)`.  The written frame instead holds value 6
(the frame pixel `(1, 1)`) at output position `(1, 1)`: the clipped block
was copied to the canvas origin, not to its offset inside the window, so
the claimed one-to-one window-relative correspondence fails for windows
clipped at the top/left edge. -/
theorem C2_counterexample :
    getPixel [[1, 2, 3, 4], [5, 6, 7, 8], [9, 10, 11, 12], [13, 14, 15, 16]] 0 0 = 1 ∧
      ((1 : Int) - 2 ≤ 0 ∧ (0 : Int) < 1 + 2 ∧ (0 : Int) - (1 - 2) = 1) ∧
      getPixel
        (written_frame [[1, 2, 3, 4], [5, 6, 7, 8], [9, 10, 11, 12], [13, 14, 15, 16]] 4 1 1)
        1 1 = 6 ∧
      (6 : Nat) ≠ 1 := by
  decide

/-- **C2 amended** — the Crop Exporter copies the clipped pixel block to
the origin of the zero canvas (not to the block's offset inside the crop
window).  Consequently the window-relative pixel correspondence claimed by
the spec holds exactly when the window is not clipped at the top or left
edge (`half ≤ cy` and `half ≤ cx`); output pixel `(r, c)` is then the
frame pixel `(cy - half + r, cx - half + c)` whenever that position exists
in both window and frame, and 0 otherwise. -/
theorem C2_clipped_block_at_origin (f : Image) (s cx cy : Nat) (hrect : isRect f)
    (hcy : half_crop_size s ≤ cy) (hcx : half_crop_size s ≤ cx)
    (r c : Nat) (hr : r < s) (hc : c < s) :
    getPixel (written_frame f s cx cy) r c =
      if r < 2 * half_crop_size s ∧ (cy - half_crop_size s) + r < f.length ∧
          c < 2 * half_crop_size s ∧ (cx - half_crop_size s) + c < imWidth f
      then getPixel f ((cy - half_crop_size s) + r) ((cx - half_crop_size s) + c)
      else 0 := by
  rw [written_frame_pixel f s cx cy hrect r c hr hc]
  by_cases h : r < 2 * half_crop_size s ∧ (cy - half_crop_size s) + r < f.length ∧
      c < 2 * half_crop_size s ∧ (cx - half_crop_size s) + c < imWidth f
  · rw [if_pos h, if_pos ⟨by omega, by omega⟩]
  · rw [if_neg h, if_neg ?_]
    intro ⟨h1, h2⟩
    exact h ⟨by omega, by omega, by omega, by omega⟩

/-- **C2 witness** — 2×2 frame, crop size 2, interior center `(1, 1)`:
output pixel `(0, 0)` is the frame pixel `(0, 0)`. -/
theorem C2_witness :
    isRect [[1, 2], [3, 4]] ∧ half_crop_size 2 ≤ 1 ∧ (0 : Nat) < 2 ∧
      getPixel (written_frame [[1, 2], [3, 4]] 2 1 1) 0 0 =
        if 0 < 2 * half_crop_size 2 ∧ (1 - half_crop_size 2) + 0 < 2 ∧
            0 < 2 * half_crop_size 2 ∧ (1 - half_crop_size 2) + 0 < imWidth [[1, 2], [3, 4]]
        then getPixel [[1, 2], [3, 4]] ((1 - half_crop_size 2) + 0) ((1 - half_crop_size 2) + 0)
        else 0 := by
  refine ⟨by decide, by decide, by decide, ?_⟩
  have h := C2_clipped_block_at_origin [[1, 2], [3, 4]] 2 1 1 (by decide) (by decide)
    (by decide) 0 0 (by decide) (by decide)
  simpa using h

/-- **C9** — for every odd crop size the clipped source block spans at
most `2 * (s / 2) = s - 1` pixels per axis, so the bottom row and the
rightmost column of every written frame are entirely zero, whatever the
center: only even crop sizes can fill the whole `s×s` canvas with source
pixels. -/
theorem C9_odd_crop_pads_last_row_col (f : Image) (s cx cy : Nat)
    (hrect : isRect f) (hodd : s % 2 = 1) :
    (crop_region f s cx cy).length ≤ s - 1 ∧
      imWidth (crop_region f s cx cy) ≤ s - 1 ∧
      (∀ c < s, getPixel (written_frame f s cx cy) (s - 1) c = 0) ∧
      (∀ r < s, getPixel (written_frame f s cx cy) r (s - 1) = 0) := by
  have hle := crop_region_le f s cx cy hrect
  have hhalf : 2 * half_crop_size s = s - 1 := by
    unfold half_crop_size; omega
  refine ⟨by omega, by omega, ?_, ?_⟩
  · intro c hc
    rw [written_frame_pixel f s cx cy hrect (s - 1) c (by omega) hc, if_neg ?_]
    intro ⟨h1, _⟩
    unfold half_crop_size at h1 hhalf
    omega
  · intro r hr
    rw [written_frame_pixel f s cx cy hrect r (s - 1) hr (by omega), if_neg ?_]
    intro ⟨_, h2⟩
    unfold half_crop_size at h2 hhalf
    omega

/-- **C9 witness** — crop size 5, 4×4 frame, interior center `(2, 2)`:
the block is at most 4×4 and the last output row/column are zero. -/
theorem C9_witness :
    isRect [[1, 2, 3, 4], [5, 6, 7, 8], [9, 10, 11, 12], [13, 14, 15, 16]] ∧
      5 % 2 = 1 ∧
      (crop_region [[1, 2, 3, 4], [5, 6, 7, 8], [9, 10, 11, 12], [13, 14, 15, 16]] 5 2 2).length ≤ 4 ∧
      getPixel
        (written_frame [[1, 2, 3, 4], [5, 6, 7, 8], [9, 10, 11, 12], [13, 14, 15, 16]] 5 2 2)
        4 0 = 0 := by
  refine ⟨by decide, by decide, ?_, ?_⟩
  · exact (C9_odd_crop_pads_last_row_col
      [[1, 2, 3, 4], [5, 6, 7, 8], [9, 10, 11, 12], [13, 14, 15, 16]] 5 2 2
      (by decide) (by decide)).1
  · exact (C9_odd_crop_pads_last_row_col
      [[1, 2, 3, 4], [5, 6, 7, 8], [9, 10, 11, 12], [13, 14, 15, 16]] 5 2 2
      (by decide) (by decide)).2.2.1 0 (by decide)

/-! ## The selection model (`VideoFrameExplorer`, crop.py 129-466)

The explorer state the claims concern is the candidate list
`detected_centers : List ((ℚ × ℚ) × Bool)` (center in canvas/display
coordinates paired with its `clicked` flag, crop.py lines 138, 287, 294)
and the current `crop_size` (line 139, updated only by
`update_crop_size`). -/

structure ExplorerState where
  detected_centers : List ((ℚ × ℚ) × Bool)
  crop_size : Nat
deriving DecidableEq, Repr

/-- The width-only scale computed inline by `on_canvas_click`,
`on_canvas_right_click`, `export` and `export_one` (crop.py lines
344-346, 400-402): `scale = 960 / orig_width if orig_width else 1`. -/
def clickScale (origWidth : Nat) : ℚ :=
  if origWidth ≠ 0 then 960 / (origWidth : ℚ) else 1

/-- `VideoFrameExplorer.get_scale` (crop.py lines 333-340):
`min(960 / orig_width, 540 / orig_height)` with a fallback of 1 for a
zero dimension. -/
def get_scale (origWidth origHeight : Nat) : ℚ :=
  min (if origWidth ≠ 0 then 960 / (origWidth : ℚ) else 1)
    (if origHeight ≠ 0 then 540 / (origHeight : ℚ) else 1)

/-- `VideoFrameExplorer.add_custom_rectangle` (crop.py lines 284-290):
when both typed coordinates parse as integers `> 0`, append
`((x * get_scale(), y * get_scale()), True)`; otherwise do nothing. -/
def add_custom_rectangle (origWidth origHeight : Nat) (x y : Int)
    (m : ExplorerState) : ExplorerState :=
  if 0 < x ∧ 0 < y then
    { m with
      detected_centers := m.detected_centers ++
        [(((x : ℚ) * get_scale origWidth origHeight,
           (y : ℚ) * get_scale origWidth origHeight), true)] }
  else m

/-- `VideoFrameExplorer.detect_and_draw_centers` (crop.py lines 292-294):
append the detector's centers with `clicked = False`.  The frame handed to
the detector is the resized display frame from `get_first_frame`, so the
appended coordinates live in the same (display) space as the list. -/
def detect_and_draw_centers (centers : List (ℚ × ℚ)) (m : ExplorerState) :
    ExplorerState :=
  { m with
    detected_centers := m.detected_centers ++ centers.map (fun c => (c, false)) }

/-- `VideoFrameExplorer.update_crop_size` (crop.py lines 250-259):
`parsed = none` stands for `int(...)` raising `ValueError` (the handler
then only resets the text field); a parsed value is stored only when
positive. -/
def update_crop_size : Option Int → ExplorerState → ExplorerState
  | none, m => m
  | some n, m => if 0 < n then { m with crop_size := n.toNat } else m

/-- The hit test of `on_canvas_click` (crop.py lines 349-357):
`x1 ≤ x ≤ x2 and y1 ≤ y ≤ y2` for the box of half side
`half_side_length_scaled` around the stored center. -/
def inBox (p center : ℚ × ℚ) (halfSide : ℚ) : Bool :=
  decide (center.1 - halfSide ≤ p.1 ∧ p.1 ≤ center.1 + halfSide ∧
    center.2 - halfSide ≤ p.2 ∧ p.2 ≤ center.2 + halfSide)

/-- The loop body of `on_canvas_click` (crop.py lines 348-361): walk the
list in order, flip the `clicked` flag of the first candidate whose box
contains the point, stop there (`break`); leave the list as is when no
box matches. -/
def toggle_first (p : ℚ × ℚ) (halfSide : ℚ) :
    List ((ℚ × ℚ) × Bool) → List ((ℚ × ℚ) × Bool)
  | [] => []
  | (c, f) :: rest =>
    if inBox p c halfSide then (c, !f) :: rest
    else (c, f) :: toggle_first p halfSide rest

/-- `VideoFrameExplorer.on_canvas_click` (crop.py lines 342-361):
`half_side_length_scaled = scale * (crop_size // 2)` with the width-only
`scale = 960 / orig_width`. -/
def on_canvas_click (origWidth : Nat) (p : ℚ × ℚ) (m : ExplorerState) :
    ExplorerState :=
  { m with
    detected_centers :=
      toggle_first p (clickScale origWidth * ((m.crop_size / 2 : Nat) : ℚ))
        m.detected_centers }

/-- Python `int()` applied to the rationals this program divides:
truncation toward zero (`Int.tdiv` on numerator and denominator). -/
def pyInt (q : ℚ) : Int := Int.tdiv q.num (q.den : Int)

/-- The export-time center mapping of `VideoFrameExplorer.export` and
`export_one` (crop.py lines 403-407, 453-457):
`[(int(x / scale), int(y / scale)) for (x, y), clicked in centers if clicked]`
with the width-only `scale = 960 / orig_width`. -/
def export_selected_centers (origWidth : Nat)
    (l : List ((ℚ × ℚ) × Bool)) : List (Int × Int) :=
  l.filterMap fun cf =>
    if cf.2 then
      some (pyInt (cf.1.1 / clickScale origWidth),
        pyInt (cf.1.2 / clickScale origWidth))
    else none

/-- Following the spec's words (claim C4), for comparison with
`on_canvas_click`: the same toggle loop but with the hit box scaled by
`get_scale` — the `min(960/W, 540/H)` factor the spec prescribes for
every display/native conversion. -/
def min_scale_click (origWidth origHeight : Nat) (p : ℚ × ℚ)
    (m : ExplorerState) : ExplorerState :=
  { m with
    detected_centers :=
      toggle_first p
        (get_scale origWidth origHeight * ((m.crop_size / 2 : Nat) : ℚ))
        m.detected_centers }

/-! ### Selection model lemmas -/

theorem get_scale_pos (origWidth origHeight : Nat) :
    0 < get_scale origWidth origHeight := by
  unfold get_scale
  apply lt_min
  · split
    · apply div_pos (by norm_num)
      exact_mod_cast Nat.pos_of_ne_zero (by assumption)
    · norm_num
  · split
    · apply div_pos (by norm_num)
      exact_mod_cast Nat.pos_of_ne_zero (by assumption)
    · norm_num

theorem pyInt_intCast (n : Int) : pyInt ((n : Int) : ℚ) = n := by
  simp [pyInt]

theorem toggle_first_no_hit (p : ℚ × ℚ) (halfSide : ℚ)
    (l : List ((ℚ × ℚ) × Bool))
    (h : ∀ cf ∈ l, inBox p cf.1 halfSide = false) :
    toggle_first p halfSide l = l := by
  induction l with
  | nil => rfl
  | cons cf rest ih =>
    obtain ⟨c, f⟩ := cf
    unfold toggle_first
    rw [h (c, f) (List.mem_cons_self _ _), if_neg (by simp)]
    rw [ih (fun cf hcf => h cf (List.mem_cons_of_mem _ hcf))]

theorem toggle_first_first_hit (p : ℚ × ℚ) (halfSide : ℚ)
    (l1 : List ((ℚ × ℚ) × Bool)) (c : ℚ × ℚ) (f : Bool)
    (l2 : List ((ℚ × ℚ) × Bool))
    (h1 : ∀ cf ∈ l1, inBox p cf.1 halfSide = false)
    (h2 : inBox p c halfSide = true) :
    toggle_first p halfSide (l1 ++ (c, f) :: l2) = l1 ++ (c, !f) :: l2 := by
  induction l1 with
  | nil =>
    simp only [List.nil_append]
    unfold toggle_first
    rw [if_pos h2]
  | cons cf rest ih =>
    obtain ⟨c', f'⟩ := cf
    simp only [List.cons_append]
    unfold toggle_first
    rw [h1 (c', f') (List.mem_cons_self _ _), if_neg (by simp)]
    rw [ih (fun cf hcf => h1 cf (List.mem_cons_of_mem _ hcf))]

/-! ### C3: which coordinate space does the candidate list hold? -/

/-- **C3 counterexample** — native video resolution 1920×1080, so
`get_scale = 1/2`.  Typing the native coordinates `(100, 100)` into the
manual-entry boxes stores the candidate center `(50, 50)` — the
display-space point `native * scale` — not the native point `(100, 100)`.
The candidate list therefore does not hold native-space centers, and the
manual entry was converted *to display space*, not to native space. -/
theorem C3_counterexample :
    get_scale 1920 1080 = 1 / 2 ∧
      (add_custom_rectangle 1920 1080 100 100 ⟨[], 100⟩).detected_centers =
        [((50, 50), true)] ∧
      ((50 : ℚ), (50 : ℚ)) ≠ ((100 : ℚ), (100 : ℚ)) := by
  refine ⟨?_, ?_, by decide⟩
  · unfold get_scale
    norm_num
  · unfold add_custom_rectangle
    rw [if_pos (by decide)]
    have : get_scale 1920 1080 = 1 / 2 := by unfold get_scale; norm_num
    simp [this]
    norm_num

/-- **C3 amended** — the candidate list holds *display-space* centers and
all comparisons happen in display space: a manual entry of native
coordinates `(x, y)` is multiplied by the current scale before insertion
(detected candidates are likewise appended in the display space of the
resized frame, `detect_and_draw_centers`), and the stored center divided
by the scale recovers the native coordinates exactly. -/
theorem C3_display_space_storage (origWidth origHeight : Nat) (x y : Int)
    (m : ExplorerState) (hx : 0 < x) (hy : 0 < y) :
    (add_custom_rectangle origWidth origHeight x y m).detected_centers =
      m.detected_centers ++
        [(((x : ℚ) * get_scale origWidth origHeight,
           (y : ℚ) * get_scale origWidth origHeight), true)] ∧
      pyInt (((x : ℚ) * get_scale origWidth origHeight) /
        get_scale origWidth origHeight) = x ∧
      pyInt (((y : ℚ) * get_scale origWidth origHeight) /
        get_scale origWidth origHeight) = y := by
  have hs : get_scale origWidth origHeight ≠ 0 :=
    ne_of_gt (get_scale_pos origWidth origHeight)
  refine ⟨?_, ?_, ?_⟩
  · unfold add_custom_rectangle
    rw [if_pos ⟨hx, hy⟩]
  · rw [mul_div_assoc, div_self hs, mul_one, pyInt_intCast]
  · rw [mul_div_assoc, div_self hs, mul_one, pyInt_intCast]

/-- **C3 witness** — resolution 1920×1080, manual native entry `(8, 6)`:
the stored center is `(4, 3)` (display space) and dividing by the scale
recovers `(8, 6)`. -/
theorem C3_witness :
    (0 : Int) < 8 ∧ (0 : Int) < 6 ∧
      ((add_custom_rectangle 1920 1080 8 6 ⟨[], 100⟩).detected_centers =
          [(((8 : ℚ) * get_scale 1920 1080, (6 : ℚ) * get_scale 1920 1080), true)] ∧
        pyInt (((8 : ℚ) * get_scale 1920 1080) / get_scale 1920 1080) = 8 ∧
        pyInt (((6 : ℚ) * get_scale 1920 1080) / get_scale 1920 1080) = 6) := by
  refine ⟨by decide, by decide, ?_⟩
  have h := C3_display_space_storage 1920 1080 8 6 ⟨[], 100⟩ (by decide) (by decide)
  simpa using h

/-! ### C4: which scale factor do the conversions use? -/

/-- **C4 counterexample** — a square 960×960 video.  The spec's scale is
`min(960/960, 540/960) = 9/16`, but the click handler computes
`960/960 = 1`: a click at `(140, 100)` on a candidate at `(100, 100)`
with crop size 100 toggles the candidate under the code's width-only
scale (hit box half-side `1 * 50 = 50`), while the hit-test the claim
prescribes (half-side `9/16 * 50 = 225/8`) would not. -/
theorem C4_counterexample :
    clickScale 960 ≠ get_scale 960 960 ∧
      on_canvas_click 960 (140, 100) ⟨[((100, 100), false)], 100⟩ ≠
        min_scale_click 960 960 (140, 100) ⟨[((100, 100), false)], 100⟩ := by
  constructor
  · unfold clickScale get_scale
    norm_num
  · unfold on_canvas_click min_scale_click clickScale get_scale
    norm_num
    unfold toggle_first inBox
    norm_num

/-- **C4 amended** — the hit-test of `on_canvas_click` (and likewise
`on_canvas_right_click`) and the center mapping of `export`/`export_one`
use the width-only factor `960 / nativeWidth`, recomputed from the
current video each call; it agrees with the spec's
`min(960/nativeWidth, 540/nativeHeight)` exactly when
`960 * nativeHeight ≤ 540 * nativeWidth` (aspect ratio at least 16:9),
and only then.  (`get_scale`, used for drawing and for manual insertion,
does use the min.) -/
theorem C4_conversions_use_width_scale (W H : Nat) (p : ℚ × ℚ)
    (m : ExplorerState) (l : List ((ℚ × ℚ) × Bool))
    (hW : W ≠ 0) (hH : H ≠ 0) :
    clickScale W = 960 / (W : ℚ) ∧
      on_canvas_click W p m =
        { m with
          detected_centers :=
            toggle_first p ((960 / (W : ℚ)) * ((m.crop_size / 2 : Nat) : ℚ))
              m.detected_centers } ∧
      export_selected_centers W l =
        (l.filterMap fun cf =>
          if cf.2 then
            some (pyInt (cf.1.1 / (960 / (W : ℚ))),
              pyInt (cf.1.2 / (960 / (W : ℚ))))
          else none) ∧
      (get_scale W H = clickScale W ↔ (960 : ℚ) * H ≤ 540 * W) := by
  have hcs : clickScale W = 960 / (W : ℚ) := by unfold clickScale; rw [if_pos hW]
  have hWpos : (0 : ℚ) < W := by exact_mod_cast Nat.pos_of_ne_zero hW
  have hHpos : (0 : ℚ) < H := by exact_mod_cast Nat.pos_of_ne_zero hH
  refine ⟨hcs, by rw [on_canvas_click, hcs], by rw [export_selected_centers, hcs], ?_⟩
  unfold get_scale clickScale
  rw [if_pos hW, if_pos hH]
  rw [min_comm, min_eq_right_iff, div_le_div_iff₀ hWpos hHpos]

/-- **C4 witness** — a 16:9 video (1920×1080): the width-only scale is
`1/2` and coincides with the min-scale. -/
theorem C4_witness :
    (1920 : Nat) ≠ 0 ∧ (1080 : Nat) ≠ 0 ∧
      (clickScale 1920 = 960 / (1920 : ℚ) ∧
        on_canvas_click 1920 (0, 0) ⟨[], 100⟩ =
          { ExplorerState.mk [] 100 with
            detected_centers :=
              toggle_first (0, 0)
                ((960 / (1920 : ℚ)) * (((100 : Nat) / 2 : Nat) : ℚ)) [] } ∧
        export_selected_centers 1920 [] =
          (([] : List ((ℚ × ℚ) × Bool)).filterMap fun cf =>
            if cf.2 then
              some (pyInt (cf.1.1 / (960 / (1920 : ℚ))),
                pyInt (cf.1.2 / (960 / (1920 : ℚ))))
            else none) ∧
        (get_scale 1920 1080 = clickScale 1920 ↔ (960 : ℚ) * 1080 ≤ 540 * 1920)) := by
  exact ⟨by decide, by decide,
    C4_conversions_use_width_scale 1920 1080 (0, 0) ⟨[], 100⟩ []
      (by decide) (by decide)⟩

/-! ### C5: what does a manual add append? -/

/-- **C5 counterexample** — `add_custom_rectangle` appends the manual
candidate with `clicked = True` (crop.py line 287), not with
`selected = false` as claimed: adding `(1, 1)` on a 1920×1080 video
yields a candidate whose flag is `true`. -/
theorem C5_counterexample :
    (add_custom_rectangle 1920 1080 1 1 ⟨[], 100⟩).detected_centers =
        [((1 * get_scale 1920 1080, 1 * get_scale 1920 1080), true)] ∧
      true ≠ false := by
  refine ⟨?_, by decide⟩
  unfold add_custom_rectangle
  rw [if_pos (by decide)]
  norm_num

/-- **C5 amended** — `addManual(x, y)` with positive integer coordinates
appends exactly one Manual candidate, at the end of the list, with its
selected flag **true** (the code passes `True`); non-positive coordinates
are rejected with the state unchanged. -/
theorem C5_add_manual_appends_selected (origWidth origHeight : Nat)
    (x y : Int) (m : ExplorerState) :
    (0 < x → 0 < y →
      add_custom_rectangle origWidth origHeight x y m =
        { m with
          detected_centers := m.detected_centers ++
            [(((x : ℚ) * get_scale origWidth origHeight,
               (y : ℚ) * get_scale origWidth origHeight), true)] }) ∧
      (x ≤ 0 ∨ y ≤ 0 → add_custom_rectangle origWidth origHeight x y m = m) := by
  constructor
  · intro hx hy
    unfold add_custom_rectangle
    rw [if_pos ⟨hx, hy⟩]
  · intro h
    unfold add_custom_rectangle
    rw [if_neg (by omega)]

/-- **C5 witness** — accepting `(2, 3)` appends one selected candidate;
rejecting `(0, 3)` leaves the state unchanged. -/
theorem C5_witness :
    add_custom_rectangle 960 540 2 3 ⟨[((7, 7), false)], 100⟩ =
        { ExplorerState.mk [((7, 7), false)] 100 with
          detected_centers := [((7, 7), false)] ++
            [(((2 : ℚ) * get_scale 960 540, (3 : ℚ) * get_scale 960 540), true)] } ∧
      add_custom_rectangle 960 540 0 3 ⟨[((7, 7), false)], 100⟩ =
        ⟨[((7, 7), false)], 100⟩ := by
  exact ⟨(C5_add_manual_appends_selected 960 540 2 3 ⟨[((7, 7), false)], 100⟩).1
      (by decide) (by decide),
    (C5_add_manual_appends_selected 960 540 0 3 ⟨[((7, 7), false)], 100⟩).2
      (Or.inl (by decide))⟩


/-! ### C6: the click hit-test -/

/-- **C6 counterexample** — native width 1088 (`clickScale = 15/17`),
crop size 5, one unselected candidate stored at display point
`(150/17, 150/17)` — i.e. native center `(10, 10)` — and a click at
display `(11, 9)`.  Converted to native space the click is
`(187/15, 51/5)`, inside the axis-aligned square of side 5 centered at
the native coordinate `(10, 10)` (both components within `5/2` of 10);
the click even lies within `5/2` of the stored display center on both
axes.  Yet `on_canvas_click` leaves the list unchanged: its hit box has
half-side `scale * (5 // 2) = 30/17`, smaller than the claimed
`cropSize`-sided square, so for odd crop sizes a point inside the
claimed square need not toggle anything. -/
theorem C6_counterexample :
    on_canvas_click 1088 (11, 9) ⟨[((150 / 17, 150 / 17), false)], 5⟩ =
        ⟨[((150 / 17, 150 / 17), false)], 5⟩ ∧
      (150 / 17 : ℚ) / clickScale 1088 = 10 ∧
      ((10 : ℚ) - 5 / 2 ≤ 11 / clickScale 1088 ∧
        11 / clickScale 1088 ≤ 10 + 5 / 2 ∧
        (10 : ℚ) - 5 / 2 ≤ 9 / clickScale 1088 ∧
        9 / clickScale 1088 ≤ 10 + 5 / 2) ∧
      ((150 / 17 : ℚ) - 5 / 2 ≤ 11 ∧ (11 : ℚ) ≤ 150 / 17 + 5 / 2 ∧
        (150 / 17 : ℚ) - 5 / 2 ≤ 9 ∧ (9 : ℚ) ≤ 150 / 17 + 5 / 2) := by
  have hbox : inBox (11, 9) (150 / 17, 150 / 17)
      (clickScale 1088 * ((5 / 2 : Nat) : ℚ)) = false := by
    apply decide_eq_false
    intro h
    obtain ⟨-, h2, -, -⟩ := h
    unfold clickScale at h2
    norm_num at h2
  refine ⟨?_, ?_, ?_, ?_⟩
  · show ExplorerState.mk
        (toggle_first (11, 9) (clickScale 1088 * ((5 / 2 : Nat) : ℚ))
          [((150 / 17, 150 / 17), false)]) 5 =
      ExplorerState.mk [((150 / 17, 150 / 17), false)] 5
    congr 1
    refine toggle_first_no_hit _ _ _ ?_
    intro cf hcf
    rw [List.mem_singleton] at hcf
    subst hcf
    exact hbox
  · unfold clickScale
    norm_num
  · unfold clickScale
    norm_num
  · norm_num

/-- **C6 amended** — `on_canvas_click` hit-tests the display point, in
insertion order, against each candidate's box of half-side
`clickScale * (cropSize // 2)` around its stored (display) center — a
square of side `2 * (cropSize // 2)` in native pixels, which equals
`cropSize` only for even crop sizes — flips the flag of exactly the
first match, and leaves the list unchanged when no box contains the
point. -/
theorem C6_toggle_first_match (W : Nat) (p : ℚ × ℚ) (m : ExplorerState) :
    ((∀ cf ∈ m.detected_centers,
        inBox p cf.1 (clickScale W * ((m.crop_size / 2 : Nat) : ℚ)) = false) →
      on_canvas_click W p m = m) ∧
      (∀ l1 c f l2, m.detected_centers = l1 ++ (c, f) :: l2 →
        (∀ cf ∈ l1,
          inBox p cf.1 (clickScale W * ((m.crop_size / 2 : Nat) : ℚ)) = false) →
        inBox p c (clickScale W * ((m.crop_size / 2 : Nat) : ℚ)) = true →
        on_canvas_click W p m = { m with detected_centers := l1 ++ (c, !f) :: l2 }) := by
  constructor
  · intro h
    unfold on_canvas_click
    rw [toggle_first_no_hit _ _ _ h]
  · intro l1 c f l2 hdec h1 h2
    unfold on_canvas_click
    rw [hdec, toggle_first_first_hit _ _ _ _ _ _ h1 h2]

/-- **C6 witness** — width 960 (scale 1), crop size 100: a click at
`(500, 500)` hits no box and is a no-op; a click at `(5, 5)` misses the
first candidate `(200, 200)` and flips exactly the second, `(10, 10)`. -/
theorem C6_witness :
    on_canvas_click 960 (500, 500) ⟨[((200, 200), false), ((10, 10), false)], 100⟩ =
        ⟨[((200, 200), false), ((10, 10), false)], 100⟩ ∧
      on_canvas_click 960 (5, 5) ⟨[((200, 200), false), ((10, 10), false)], 100⟩ =
        { ExplorerState.mk [((200, 200), false), ((10, 10), false)] 100 with
          detected_centers := [((200, 200), false)] ++ ((10, 10), !false) :: [] } := by
  have hs : clickScale 960 * ((100 / 2 : Nat) : ℚ) = 50 := by
    unfold clickScale
    norm_num
  constructor
  · apply (C6_toggle_first_match 960 (500, 500)
      ⟨[((200, 200), false), ((10, 10), false)], 100⟩).1
    intro cf hcf
    show inBox (500, 500) cf.1 (clickScale 960 * ((100 / 2 : Nat) : ℚ)) = false
    rw [hs]
    rw [List.mem_cons, List.mem_singleton] at hcf
    rcases hcf with h | h
    · subst h
      apply decide_eq_false
      intro hP
      obtain ⟨-, h2, -, -⟩ := hP
      norm_num at h2
    · subst h
      apply decide_eq_false
      intro hP
      obtain ⟨-, h2, -, -⟩ := hP
      norm_num at h2
  · apply (C6_toggle_first_match 960 (5, 5)
      ⟨[((200, 200), false), ((10, 10), false)], 100⟩).2
      [((200, 200), false)] (10, 10) false [] rfl
    · intro cf hcf
      rw [List.mem_singleton] at hcf
      subst hcf
      show inBox (5, 5) (200, 200) (clickScale 960 * ((100 / 2 : Nat) : ℚ)) = false
      rw [hs]
      apply decide_eq_false
      intro hP
      obtain ⟨h1, -, -, -⟩ := hP
      norm_num at h1
    · show inBox (5, 5) (10, 10) (clickScale 960 * ((100 / 2 : Nat) : ℚ)) = true
      rw [hs]
      apply decide_eq_true
      norm_num

/-! ### C7: crop size update -/

/-- **C7** — `update_crop_size` stores only positive parsed values; a
non-positive parsed value or a parse failure leaves the whole state
unchanged; and on every input, valid or not, the candidate list
(cardinality, order, centers and flags alike) is untouched — the crop
size only affects later hit-tests and exports. -/
theorem C7_update_crop_size_safe (parsed : Option Int) (m : ExplorerState) :
    (update_crop_size parsed m).detected_centers = m.detected_centers ∧
      (∀ n, parsed = some n → n ≤ 0 → update_crop_size parsed m = m) ∧
      (parsed = none → update_crop_size parsed m = m) ∧
      (∀ n, parsed = some n → 0 < n →
        update_crop_size parsed m = { m with crop_size := n.toNat }) := by
  refine ⟨?_, ?_, ?_, ?_⟩
  · cases parsed with
    | none => rfl
    | some n =>
      show (if 0 < n then { m with crop_size := n.toNat } else m).detected_centers =
        m.detected_centers
      by_cases h : 0 < n
      · rw [if_pos h]
      · rw [if_neg h]
  · intro n hn hle
    subst hn
    show (if 0 < n then { m with crop_size := n.toNat } else m) = m
    rw [if_neg (by omega)]
  · intro h
    subst h
    rfl
  · intro n hn hpos
    subst hn
    show (if 0 < n then { m with crop_size := n.toNat } else m) =
      { m with crop_size := n.toNat }
    rw [if_pos hpos]

/-- **C7 witness** — rejecting `-3` leaves the state unchanged, a failed
parse leaves it unchanged, and accepting `42` changes only the crop
size, never the candidate list. -/
theorem C7_witness :
    update_crop_size (some (-3)) ⟨[((1, 2), true)], 100⟩ = ⟨[((1, 2), true)], 100⟩ ∧
      update_crop_size none ⟨[((1, 2), true)], 100⟩ = ⟨[((1, 2), true)], 100⟩ ∧
      (update_crop_size (some 42) ⟨[((1, 2), true)], 100⟩).detected_centers =
        [((1, 2), true)] ∧
      update_crop_size (some 42) ⟨[((1, 2), true)], 100⟩ =
        { ExplorerState.mk [((1, 2), true)] 100 with crop_size := Int.toNat 42 } := by
  refine ⟨?_, ?_, ?_, ?_⟩
  · exact (C7_update_crop_size_safe (some (-3)) ⟨[((1, 2), true)], 100⟩).2.1
      (-3) rfl (by decide)
  · exact (C7_update_crop_size_safe none ⟨[((1, 2), true)], 100⟩).2.2.1 rfl
  · exact (C7_update_crop_size_safe (some 42) ⟨[((1, 2), true)], 100⟩).1
  · exact (C7_update_crop_size_safe (some 42) ⟨[((1, 2), true)], 100⟩).2.2.2
      42 rfl (by decide)

/-! ## The parallel export coordinator (`VideoFrameExplorer.export`,
crop.py lines 415-441)

One task per video is submitted to the process pool; the loop
`for future in as_completed(...)` then handles every submitted task
exactly once, in whatever order the tasks finish.  The loop body first
calls `self.progress.update(1)` unconditionally, then asks the future for
its result, catching any exception and reporting it together with the
owning video's name (`future_to_video[future]`).  The loop is embedded as
a fold over the completion-ordered list of `(video, outcome)` pairs. -/

structure CoordState where
  progress : Nat
  failures : List (String × String)
deriving DecidableEq, Repr

/-- One iteration of the `as_completed` loop (crop.py lines 429-437):
progress is bumped for every completed task; a raised exception is
recorded with the video's name. -/
def coord_step (st : CoordState) (vr : String × Except String Unit) : CoordState :=
  { progress := st.progress + 1,
    failures :=
      match vr.2 with
      | .ok _ => st.failures
      | .error e => st.failures ++ [(vr.1, e)] }

/-- The record `(video, error)` the loop prints for a failed task, none
for a successful one. -/
def failure_record (vr : String × Except String Unit) : Option (String × String) :=
  match vr.2 with
  | .ok _ => none
  | .error e => some (vr.1, e)

/-- The whole completion loop over the batch. -/
def process_completed (results : List (String × Except String Unit)) : CoordState :=
  results.foldl coord_step ⟨0, []⟩

theorem coord_foldl (results : List (String × Except String Unit))
    (init : CoordState) :
    results.foldl coord_step init =
      ⟨init.progress + results.length,
        init.failures ++ results.filterMap failure_record⟩ := by
  induction results generalizing init with
  | nil => simp
  | cons vr rest ih =>
    obtain ⟨v, r⟩ := vr
    rw [List.foldl_cons, ih]
    cases r with
    | ok u =>
      simp only [coord_step, List.filterMap_cons, failure_record, List.length_cons,
        CoordState.mk.injEq]
      exact ⟨by omega, trivial⟩
    | error e =>
      simp only [coord_step, List.filterMap_cons, failure_record, List.length_cons,
        CoordState.mk.injEq]
      refine ⟨by omega, ?_⟩
      rw [List.append_assoc]
      rfl

/-- **C8** — over any completion order of the submitted batch: the
progress counter is bumped exactly once per submitted task, success or
failure alike; the recorded failures are exactly the failed tasks, each
paired with its own video's identity; in particular every task that
raised is recorded and every submitted task was consumed by the loop. -/
theorem C8_failure_isolation (results : List (String × Except String Unit)) :
    (process_completed results).progress = results.length ∧
      (process_completed results).failures = results.filterMap failure_record ∧
      ∀ v e, (v, Except.error e) ∈ results →
        (v, e) ∈ (process_completed results).failures := by
  have h := coord_foldl results ⟨0, []⟩
  unfold process_completed
  rw [h]
  refine ⟨by simp, by simp, ?_⟩
  intro v e hmem
  simp only [List.nil_append]
  rw [List.mem_filterMap]
  exact ⟨(v, Except.error e), hmem, rfl⟩

/-- **C8 witness** — a 3-video batch whose middle task raises: progress
reaches 3, exactly one failure is recorded, with the failing video's
name. -/
theorem C8_witness :
    (process_completed
        [("a.mp4", Except.ok ()), ("b.mp4", Except.error "boom"),
          ("c.mp4", Except.ok ())]).progress = 3 ∧
      (process_completed
        [("a.mp4", Except.ok ()), ("b.mp4", Except.error "boom"),
          ("c.mp4", Except.ok ())]).failures = [("b.mp4", "boom")] ∧
      ("b.mp4", "boom") ∈
        (process_completed
          [("a.mp4", Except.ok ()), ("b.mp4", Except.error "boom"),
            ("c.mp4", Except.ok ())]).failures := by
  refine ⟨?_, rfl, ?_⟩
  · exact (C8_failure_isolation
      [("a.mp4", Except.ok ()), ("b.mp4", Except.error "boom"),
        ("c.mp4", Except.ok ())]).1
  · exact (C8_failure_isolation
      [("a.mp4", Except.ok ()), ("b.mp4", Except.error "boom"),
        ("c.mp4", Except.ok ())]).2.2 "b.mp4" "boom"
      (by simp)

/-! ## The bead detector (`detect_beads`, crop.py lines 61-71) -/

/-- Modelled from the spec: `cv2.findContours`/`cv2.moments` are OpenCV
calls whose code is not part of this repository.  Following §4.3 of the
spec, a contour is a set of raster points of the thresholded frame, its
zeroth moment `m00` is the contour's area (point count) and the first
moments `m10`, `m01` are the coordinate sums, so that
`(m10/m00, m01/m00)` is the area-weighted centroid. -/
def m00 (cnt : List (Nat × Nat)) : Nat := cnt.length

/-- Modelled from the spec: first raster moment in x (see `m00`). -/
def m10 (cnt : List (Nat × Nat)) : Nat := (cnt.map Prod.fst).sum

/-- Modelled from the spec: first raster moment in y (see `m00`). -/
def m01 (cnt : List (Nat × Nat)) : Nat := (cnt.map Prod.snd).sum

/-- `detect_beads` (crop.py lines 66-71): for each contour with nonzero
zeroth moment, emit the truncated centroid
`(int(m10/m00), int(m01/m00))`; skip degenerate contours. -/
def detect_beads (contours : List (List (Nat × Nat))) : List (Nat × Nat) :=
  contours.filterMap fun cnt =>
    if m00 cnt ≠ 0 then some (m10 cnt / m00 cnt, m01 cnt / m00 cnt) else none

/-- A truncated average of values all below `W` is below `W`. -/
theorem centroid_lt (l : List Nat) (W : Nat) (hne : l ≠ [])
    (hb : ∀ x ∈ l, x < W) : l.sum / l.length < W := by
  have hlen : 0 < l.length := List.length_pos.mpr hne
  have hW : 0 < W := by
    obtain ⟨x, hx⟩ := List.exists_mem_of_ne_nil l hne
    exact Nat.lt_of_le_of_lt (Nat.zero_le x) (hb x hx)
  have hS : l.sum ≤ l.length • (W - 1) :=
    List.sum_le_card_nsmul l (W - 1) (fun x hx => by have := hb x hx; omega)
  rw [smul_eq_mul] at hS
  have h2 : l.length * (W - 1) + l.length = W * l.length := by
    have h3 : W - 1 + 1 = W := by omega
    calc l.length * (W - 1) + l.length
        = l.length * (W - 1 + 1) := by rw [Nat.mul_add, Nat.mul_one]
      _ = l.length * W := by rw [h3]
      _ = W * l.length := Nat.mul_comm _ _
  rw [Nat.div_lt_iff_lt_mul hlen]
  omega

/-- **C10** — every center `detect_beads` emits lies inside the frame the
contours came from: contour points are raster points of the frame, so if
every contour point is in bounds, each emitted truncated centroid is in
bounds too; contours with zero `m00` are discarded before the division. -/
theorem C10_detected_centers_in_bounds (W H : Nat)
    (contours : List (List (Nat × Nat)))
    (hbound : ∀ cnt ∈ contours, ∀ p ∈ cnt, p.1 < W ∧ p.2 < H) :
    ∀ ctr ∈ detect_beads contours, ctr.1 < W ∧ ctr.2 < H := by
  intro ctr hctr
  unfold detect_beads at hctr
  rw [List.mem_filterMap] at hctr
  obtain ⟨cnt, hcnt, heq⟩ := hctr
  split_ifs at heq with h0
  · obtain rfl := Option.some.inj heq
    have hne : cnt ≠ [] := by
      intro hnil
      apply h0
      rw [hnil]
      rfl
    constructor
    · show m10 cnt / m00 cnt < W
      have h := centroid_lt (cnt.map Prod.fst) W
        (by simpa using hne)
        (by
          intro x hx
          rw [List.mem_map] at hx
          obtain ⟨p, hp, rfl⟩ := hx
          exact (hbound cnt hcnt p hp).1)
      unfold m10 m00
      rwa [← List.length_map cnt Prod.fst]
    · show m01 cnt / m00 cnt < H
      have h := centroid_lt (cnt.map Prod.snd) H
        (by simpa using hne)
        (by
          intro x hx
          rw [List.mem_map] at hx
          obtain ⟨p, hp, rfl⟩ := hx
          exact (hbound cnt hcnt p hp).2)
      unfold m01 m00
      rwa [← List.length_map cnt Prod.snd]

/-- **C10 witness** — one contour `[(0,0), (2,2)]` in a 3×3 frame: the
emitted centroid `(1, 1)` is in bounds. -/
theorem C10_witness :
    detect_beads [[(0, 0), (2, 2)]] = [(1, 1)] ∧
      ((1, 1) ∈ detect_beads [[(0, 0), (2, 2)]] → (1 < 3 ∧ 1 < 3)) ∧
      (1 < 3 ∧ 1 < 3) := by
  refine ⟨by decide, fun _ => by decide, ?_⟩
  exact C10_detected_centers_in_bounds 3 3 [[(0, 0), (2, 2)]]
    (by decide) (1, 1) (by decide)
